import Mathlib

/-!
Verification of the client-side authentication/session layer of
`seriaati/carta-frontend`.

The development shallowly embeds, from the TypeScript source:

* `apiRequest` (src/lib/api-client.ts, the `api.ts` half): auth-header
  injection, 401 interception, the refresh protocol, retry-once, and the
  non-2xx error tail;
* `decodeToken` / `parseJwt`: the JWT payload decoder
  (split on dots, base64url → base64, `atob`, the percent/`decodeURIComponent`
  byte pipeline, `JSON.parse`);
* the `AuthProvider` transitions `checkAuth` and `logout`
  (src/unnamed/part_000);
* a small-step interleaving machine for two concurrent `apiRequest`
  calls on the shared token store, used to settle the coalescing claim.

JavaScript data conventions are modelled explicitly: `localStorage.getItem`
returns `Option String`; JS truthiness of a possibly-absent string is
`jsTruthy`; `a || b` on strings is `jsOr` / `jsOrStr`.
-/

/-- JS truthiness of a possibly-absent string value (`undefined`/`null`/`""`
are falsy). -/
def jsTruthy : Option String → Bool
  | none => false
  | some s => !(s == "")

/-- JS `a || b` where `a` is a possibly-absent string field and `b` a string. -/
def jsOr (a : Option String) (b : String) : String :=
  match a with
  | some s => if s == "" then b else s
  | none => b

/-- JS `a || b` on two plain strings (empty string is falsy). -/
def jsOrStr (a b : String) : String :=
  if a == "" then b else a

/-- The persistent token store: `localStorage` keys `access_token` and
`refresh_token` (absent key ↦ `none`). -/
structure Store where
  access : Option String
  refresh : Option String
  deriving Repr, DecidableEq

/-- Abstraction of a `fetch` `Response` as `apiRequest` consumes it:
HTTP status, the `detail` field of the JSON body if the body parses and
has one (`none` covers both an unparsable body and a missing field), and
`statusText`. -/
structure Resp where
  status : Nat
  detail : Option String
  statusText : String
  deriving Repr, DecidableEq

/-- `Response.ok`: status in the range 200–299. -/
def Resp.isOk (r : Resp) : Bool :=
  200 ≤ r.status && r.status < 300

/-- The `access_token` / `refresh_token` fields of a refresh-response body
(absent field ↦ `none`). -/
structure TokenData where
  access_token : Option String
  refresh_token : Option String
  deriving Repr, DecidableEq

/-- A parsed refresh-response body: `responseData.data || responseData`
picks the wrapped `data` object when present, the top level otherwise. -/
structure RefreshPayload where
  data : Option TokenData
  top : TokenData
  deriving Repr, DecidableEq

/-- `const tokenData = responseData.data || responseData`. -/
def RefreshPayload.tokenData (p : RefreshPayload) : TokenData :=
  p.data.getD p.top

/-- Behaviour of the `POST /api/auth/refresh` call as `apiRequest` observes
it: `ok` (2xx with a parsed body), `notOk` (non-2xx, with the status, the
body's `detail` if it parses, and `statusText`), or `exn` (the fetch or body
parse rejected; the exception's `message` when it is an `Error`). -/
inductive RefreshOutcome where
  | ok (payload : RefreshPayload)
  | notOk (status : Nat) (detail : Option String) (statusText : String)
  | exn (msg : Option String)
  deriving Repr, DecidableEq

/-- The environment of one `apiRequest` call: the response to the initial
request, the refresh endpoint's behaviour (if invoked), the response to the
retried request (if issued), whether `typeof window !== "undefined"`, and
`window.location.pathname`. -/
structure Env where
  first : Resp
  refreshO : RefreshOutcome
  retry : Resp
  inBrowser : Bool
  pathname : String
  deriving Repr, DecidableEq

/-- Result observed by the caller of `apiRequest`: the resolved value
(abstracted as the final response; a 204 yields `{}`) or a thrown
`ApiError` with its `message` and `status`. -/
inductive ApiResult where
  | success (r : Resp)
  | error (message : String) (status : Nat)
  deriving Repr, DecidableEq

/-- Observable effect trace of one `apiRequest` call: final store contents,
number of calls to the refresh endpoint, the `Authorization` bearer token of
each issued copy of the original request (`none` = no auth header), number
of `tokenRefreshed` event dispatches, and number of assignments of
`window.location.href = "/login"`. -/
structure Trace where
  store : Store
  refreshCalls : Nat
  requests : List (Option String)
  events : Nat
  redirects : Nat
  deriving Repr, DecidableEq

/-- List prefix test (first argument is the candidate prefix). -/
def listPrefix : List Char → List Char → Bool
  | [], _ => true
  | _ :: _, [] => false
  | a :: as, b :: bs => a == b && listPrefix as bs

/-- JS `s.startsWith(p)`. -/
def strStartsWith (s p : String) : Bool :=
  listPrefix p.toList s.toList

/-- The guard on every redirect: the pathname starts with neither `/login`
nor `/auth`. -/
def redirGuard (pathname : String) : Bool :=
  !(strStartsWith pathname "/login") && !(strStartsWith pathname "/auth")

/-- `1` if the redirect guard passes (one `href` assignment), else `0`. -/
def redirCount (pathname : String) : Nat :=
  if redirGuard pathname then 1 else 0

/-- Steps 6–7 of the gateway: the non-401 tail of `apiRequest`
(lines 565–584 of api.ts). A 2xx (including 204) resolves with the
response; a 403 throws `ApiError` with the body's `detail` or the
admin-privileges default; any other non-2xx throws `ApiError` with
`detail || statusText || "An error occurred"`. -/
def finishResp (r : Resp) : ApiResult :=
  if r.isOk then
    ApiResult.success r
  else if r.status == 403 then
    ApiResult.error (jsOr r.detail "Access forbidden. This endpoint requires admin privileges.") r.status
  else
    ApiResult.error (jsOr r.detail (jsOrStr r.statusText "An error occurred")) r.status

/-- The `Authorization` token attached by `doRequest`:
`tokenOverride || localStorage.getItem("access_token")`, with the header
set only when the result is truthy. -/
def doRequestAuth (inBrowser : Bool) (store : Store) (tokenOverride : Option String) :
    Option String :=
  let token : Option String :=
    match tokenOverride with
    | some t => if t == "" then (if inBrowser then store.access else none) else some t
    | none => if inBrowser then store.access else none
  if jsTruthy token then token else none

/-- One call to `apiRequest` (api.ts lines 459–584), as a function of its
environment and the store at entry. Faithful points worth noting:

* the `refreshToken` read is tested for JS truthiness, so a stored empty
  string takes the no-refresh-token branch;
* the `throw` statements inside the refresh `try` block (missing
  `access_token`, non-2xx refresh) are caught by that block's own `catch`,
  which purges and checks the redirect guard a second time and rethrows
  the error wrapped in `Failed to refresh token: ...`;
* after a successful refresh the retried response flows into the
  non-401 tail `finishResp` with no second interception. -/
def apiRequest (env : Env) (store : Store) : ApiResult × Trace :=
  let tok0 := doRequestAuth env.inBrowser store none
  if env.first.status == 401 then
    if env.inBrowser then
      if jsTruthy store.refresh then
        match env.refreshO with
        | RefreshOutcome.ok payload =>
          let td := payload.tokenData
          if jsTruthy td.access_token then
            let newTok := td.access_token.getD ""
            let store1 : Store := { store with access := some newTok }
            let store2 : Store :=
              if jsTruthy td.refresh_token then { store1 with refresh := td.refresh_token }
              else store1
            (finishResp env.retry,
              { store := store2, refreshCalls := 1,
                requests := [tok0, doRequestAuth env.inBrowser store2 (some newTok)],
                events := 1, redirects := 0 })
          else
            let innerMsg := "Failed to refresh token - no access_token in response"
            (ApiResult.error ("Failed to refresh token: " ++ innerMsg) 401,
              { store := { access := none, refresh := none }, refreshCalls := 1,
                requests := [tok0], events := 0,
                redirects := redirCount env.pathname + redirCount env.pathname })
        | RefreshOutcome.notOk _ detail statusText =>
          let innerMsg := "Failed to refresh token: " ++ jsOr detail statusText
          (ApiResult.error ("Failed to refresh token: " ++ innerMsg) 401,
            { store := { access := none, refresh := none }, refreshCalls := 1,
              requests := [tok0], events := 0,
              redirects := redirCount env.pathname + redirCount env.pathname })
        | RefreshOutcome.exn msg =>
          (ApiResult.error ("Failed to refresh token: " ++ msg.getD "Unknown error") 401,
            { store := { access := none, refresh := none }, refreshCalls := 1,
              requests := [tok0], events := 0,
              redirects := redirCount env.pathname })
      else
        (ApiResult.error (jsOr env.first.detail (jsOrStr env.first.statusText "An error occurred"))
            env.first.status,
          { store := { store with access := none }, refreshCalls := 0,
            requests := [tok0], events := 0,
            redirects := redirCount env.pathname })
    else
      (ApiResult.error (jsOr env.first.detail (jsOrStr env.first.statusText "An error occurred"))
          env.first.status,
        { store := store, refreshCalls := 0, requests := [tok0], events := 0, redirects := 0 })
  else
    (finishResp env.first,
      { store := store, refreshCalls := 0, requests := [tok0], events := 0, redirects := 0 })

/-- A truthy optional string is a nonempty `some`. -/
theorem jsTruthy_iff (o : Option String) :
    jsTruthy o = true ↔ ∃ s, o = some s ∧ (s == "") = false := by
  cases o <;> simp [jsTruthy]

/-- Concrete token data returned by a refresh that rotates both tokens. -/
def tdNew : TokenData := { access_token := some "newAcc", refresh_token := some "newRef" }

/-- Concrete unwrapped refresh payload carrying `tdNew`. -/
def payloadNew : RefreshPayload := { data := none, top := tdNew }

/-- Concrete store holding both tokens. -/
def storeFull : Store := { access := some "oldAcc", refresh := some "oldRef" }

/-- Concrete environment: initial 401, successful refresh, retried request
succeeds with 200. -/
def envOkRetry200 : Env :=
  { first := { status := 401, detail := none, statusText := "Unauthorized" },
    refreshO := RefreshOutcome.ok payloadNew,
    retry := { status := 200, detail := none, statusText := "OK" },
    inBrowser := true, pathname := "/dashboard" }

/-- C1: a 401 with a truthy stored refresh token and a 2xx refresh response
whose body carries an access token results in exactly one refresh call and
exactly one retry of the original request bearing the new access token; the
caller observes the retried response processed by the ordinary non-401 tail,
as if no 401 had occurred. -/
theorem apiRequest_401_refresh_retries_once
    (env : Env) (store : Store) (p : RefreshPayload)
    (h401 : env.first.status = 401)
    (hbrowser : env.inBrowser = true)
    (hrt : jsTruthy store.refresh = true)
    (hro : env.refreshO = RefreshOutcome.ok p)
    (hacc : jsTruthy p.tokenData.access_token = true) :
    (apiRequest env store).1 = finishResp env.retry ∧
    (apiRequest env store).2.refreshCalls = 1 ∧
    (apiRequest env store).2.requests =
      [doRequestAuth true store none, p.tokenData.access_token] ∧
    (apiRequest env store).2.events = 1 := by
  obtain ⟨t, ht, hne⟩ := (jsTruthy_iff _).mp hacc
  have hat : jsTruthy (some t) = true := by simp [jsTruthy] at hne ⊢; exact hne
  simp [apiRequest, h401, hbrowser, hrt, hro, hacc, ht, hat, doRequestAuth, hne]

/-- Witness for C1 at a concrete environment and store. -/
theorem apiRequest_401_refresh_retries_once_witness :
    (apiRequest envOkRetry200 storeFull).1 = finishResp envOkRetry200.retry ∧
    (apiRequest envOkRetry200 storeFull).2.refreshCalls = 1 ∧
    (apiRequest envOkRetry200 storeFull).2.requests =
      [doRequestAuth true storeFull none, payloadNew.tokenData.access_token] ∧
    (apiRequest envOkRetry200 storeFull).2.events = 1 :=
  apiRequest_401_refresh_retries_once envOkRetry200 storeFull payloadNew
    (by decide) (by decide) (by decide) rfl (by decide)

/-- Concrete environment: initial 401, successful refresh, but the retried
request again returns 401. -/
def envOkRetry401 : Env :=
  { envOkRetry200 with
    retry := { status := 401, detail := some "still expired", statusText := "Unauthorized" } }

/-- C2: the refresh protocol runs at most once per `apiRequest` call — when
the retried request (after a successful refresh) again returns 401, the call
throws the generic `ApiError` of the non-401 tail carrying status 401,
having issued exactly one refresh call and exactly two copies of the
original request. -/
theorem apiRequest_second_401_is_terminal
    (env : Env) (store : Store) (p : RefreshPayload)
    (h401 : env.first.status = 401)
    (hbrowser : env.inBrowser = true)
    (hrt : jsTruthy store.refresh = true)
    (hro : env.refreshO = RefreshOutcome.ok p)
    (hacc : jsTruthy p.tokenData.access_token = true)
    (hretry : env.retry.status = 401) :
    (apiRequest env store).1 =
      ApiResult.error (jsOr env.retry.detail (jsOrStr env.retry.statusText "An error occurred")) 401 ∧
    (apiRequest env store).2.refreshCalls = 1 ∧
    (apiRequest env store).2.requests.length = 2 := by
  obtain ⟨t, ht, hne⟩ := (jsTruthy_iff _).mp hacc
  have hat : jsTruthy (some t) = true := by simp [jsTruthy] at hne ⊢; exact hne
  have hfin : finishResp env.retry =
      ApiResult.error (jsOr env.retry.detail (jsOrStr env.retry.statusText "An error occurred")) 401 := by
    simp [finishResp, Resp.isOk, hretry]
  simp [apiRequest, h401, hbrowser, hrt, hro, hacc, ht, hat, hfin]

/-- Witness for C2 at a concrete environment and store. -/
theorem apiRequest_second_401_is_terminal_witness :
    (apiRequest envOkRetry401 storeFull).1 =
      ApiResult.error
        (jsOr envOkRetry401.retry.detail (jsOrStr envOkRetry401.retry.statusText "An error occurred"))
        401 ∧
    (apiRequest envOkRetry401 storeFull).2.refreshCalls = 1 ∧
    (apiRequest envOkRetry401 storeFull).2.requests.length = 2 :=
  apiRequest_second_401_is_terminal envOkRetry401 storeFull payloadNew
    (by decide) (by decide) (by decide) rfl (by decide) (by decide)

/-- Concrete environment: initial 401 in a browsing context with no stored
refresh token. -/
def envNoRefreshTok : Env :=
  { first := { status := 401, detail := some "Not authenticated", statusText := "Unauthorized" },
    refreshO := RefreshOutcome.notOk 400 none "Bad Request",
    retry := { status := 200, detail := none, statusText := "OK" },
    inBrowser := true, pathname := "/dashboard" }

/-- Concrete store with an access token but no refresh token. -/
def storeAccessOnly : Store := { access := some "oldAcc", refresh := none }

/-- C3: a 401 in a browsing context with no refresh token in the store
issues zero refresh calls, throws an authentication error carrying the
original response's status and the body-derived message, and removes the
access token from the store (the absent refresh token stays absent). -/
theorem apiRequest_401_no_refresh_token
    (env : Env) (store : Store)
    (h401 : env.first.status = 401)
    (hbrowser : env.inBrowser = true)
    (hnort : store.refresh = none) :
    (apiRequest env store).1 =
      ApiResult.error (jsOr env.first.detail (jsOrStr env.first.statusText "An error occurred"))
        env.first.status ∧
    (apiRequest env store).2.refreshCalls = 0 ∧
    (apiRequest env store).2.store.access = none ∧
    (apiRequest env store).2.store.refresh = none := by
  simp [apiRequest, h401, hbrowser, hnort, jsTruthy]

/-- Witness for C3 at a concrete environment and store. -/
theorem apiRequest_401_no_refresh_token_witness :
    (apiRequest envNoRefreshTok storeAccessOnly).1 =
      ApiResult.error
        (jsOr envNoRefreshTok.first.detail
          (jsOrStr envNoRefreshTok.first.statusText "An error occurred"))
        envNoRefreshTok.first.status ∧
    (apiRequest envNoRefreshTok storeAccessOnly).2.refreshCalls = 0 ∧
    (apiRequest envNoRefreshTok storeAccessOnly).2.store.access = none ∧
    (apiRequest envNoRefreshTok storeAccessOnly).2.store.refresh = none :=
  apiRequest_401_no_refresh_token envNoRefreshTok storeAccessOnly
    (by decide) (by decide) (by decide)

/-- C4: after a successful refresh inside `apiRequest`, the store's access
token equals the one from the refresh response; the store's refresh token is
replaced exactly when the refresh response carried a truthy `refresh_token`
field and is untouched otherwise; and the `tokenRefreshed` broadcast fires
exactly once. -/
theorem apiRequest_refresh_persists_tokens
    (env : Env) (store : Store) (p : RefreshPayload)
    (h401 : env.first.status = 401)
    (hbrowser : env.inBrowser = true)
    (hrt : jsTruthy store.refresh = true)
    (hro : env.refreshO = RefreshOutcome.ok p)
    (hacc : jsTruthy p.tokenData.access_token = true) :
    (apiRequest env store).2.store.access = p.tokenData.access_token ∧
    (jsTruthy p.tokenData.refresh_token = true →
      (apiRequest env store).2.store.refresh = p.tokenData.refresh_token) ∧
    (jsTruthy p.tokenData.refresh_token = false →
      (apiRequest env store).2.store.refresh = store.refresh) ∧
    (apiRequest env store).2.events = 1 := by
  obtain ⟨t, ht, hne⟩ := (jsTruthy_iff _).mp hacc
  have hat : jsTruthy (some t) = true := by simp [jsTruthy] at hne ⊢; exact hne
  refine ⟨?_, ?_, ?_, ?_⟩
  · simp only [apiRequest, h401, hbrowser, hrt, hro, hacc, ht, hat]
    simp
    split <;> rfl
  · intro h
    obtain ⟨r, hrf, hrne⟩ := (jsTruthy_iff _).mp h
    have hr : jsTruthy (some r) = true := by simp [jsTruthy] at hrne ⊢; exact hrne
    simp [apiRequest, h401, hbrowser, hrt, hro, hacc, ht, hat, hrf, hr]
  · intro h
    simp [apiRequest, h401, hbrowser, hrt, hro, hacc, ht, hat, h]
  · simp [apiRequest, h401, hbrowser, hrt, hro, hacc, ht, hat]

/-- Witness for C4 at a concrete environment and store. -/
theorem apiRequest_refresh_persists_tokens_witness :
    (apiRequest envOkRetry200 storeFull).2.store.access = payloadNew.tokenData.access_token ∧
    (jsTruthy payloadNew.tokenData.refresh_token = true →
      (apiRequest envOkRetry200 storeFull).2.store.refresh = payloadNew.tokenData.refresh_token) ∧
    (jsTruthy payloadNew.tokenData.refresh_token = false →
      (apiRequest envOkRetry200 storeFull).2.store.refresh = storeFull.refresh) ∧
    (apiRequest envOkRetry200 storeFull).2.events = 1 :=
  apiRequest_refresh_persists_tokens envOkRetry200 storeFull payloadNew
    (by decide) (by decide) (by decide) rfl (by decide)

/-- Concrete environment whose initial response is a direct 403. -/
def envForbidden : Env :=
  { first := { status := 403, detail := none, statusText := "Forbidden" },
    refreshO := RefreshOutcome.notOk 400 none "Bad Request",
    retry := { status := 200, detail := none, statusText := "OK" },
    inBrowser := true, pathname := "/dashboard" }

/-- Concrete environment: initial 401, successful refresh, retried request
denied with 403. -/
def envOkRetry403 : Env :=
  { envOkRetry200 with
    retry := { status := 403, detail := none, statusText := "Forbidden" } }

/-- C9: a 403 response — directly, or on the retried request after a
successful refresh — throws the same `ApiError` kind as other non-2xx
failures, with status 403 and the body's `detail` or the privilege-specific
default message, and no token is purged from the store (directly the store
is untouched; on the retry path the freshly stored tokens remain present). -/
theorem apiRequest_403_authorization_error
    (env : Env) (store : Store) (p : RefreshPayload) :
    (env.first.status = 403 →
      (apiRequest env store).1 =
        ApiResult.error
          (jsOr env.first.detail "Access forbidden. This endpoint requires admin privileges.")
          403 ∧
      (apiRequest env store).2.store = store) ∧
    (env.first.status = 401 → env.inBrowser = true → jsTruthy store.refresh = true →
      env.refreshO = RefreshOutcome.ok p → jsTruthy p.tokenData.access_token = true →
      env.retry.status = 403 →
      (apiRequest env store).1 =
        ApiResult.error
          (jsOr env.retry.detail "Access forbidden. This endpoint requires admin privileges.")
          403 ∧
      (apiRequest env store).2.store.access.isSome = true ∧
      (apiRequest env store).2.store.refresh.isSome = true) := by
  constructor
  · intro h403
    simp [apiRequest, finishResp, Resp.isOk, h403, jsOr]
  · intro h401 hbrowser hrt hro hacc hretry
    obtain ⟨t, ht, hne⟩ := (jsTruthy_iff _).mp hacc
    obtain ⟨rt, hrtEq, hrtNe⟩ := (jsTruthy_iff _).mp hrt
    have hat : jsTruthy (some t) = true := by simp [jsTruthy] at hne ⊢; exact hne
    have hfin : finishResp env.retry =
        ApiResult.error
          (jsOr env.retry.detail "Access forbidden. This endpoint requires admin privileges.")
          403 := by
      simp [finishResp, Resp.isOk, hretry]
    refine ⟨?_, ?_, ?_⟩ <;>
      simp only [apiRequest, h401, hbrowser, hrt, hro, hacc, ht, hat, hfin] <;>
      simp [hfin]
    · split <;> simp
    · cases hrf : p.tokenData.refresh_token with
      | none => simp [hrf, jsTruthy, hrtEq]
      | some r =>
        by_cases hre : r = ""
        · simp [hrf, jsTruthy, hre, hrtEq]
        · simp [hrf, jsTruthy, hre]

/-- Witness for C9: the direct-403 case and the retried-403 case, each at a
concrete environment and store. -/
theorem apiRequest_403_authorization_error_witness :
    ((apiRequest envForbidden storeFull).1 =
        ApiResult.error
          (jsOr envForbidden.first.detail "Access forbidden. This endpoint requires admin privileges.")
          403 ∧
      (apiRequest envForbidden storeFull).2.store = storeFull) ∧
    ((apiRequest envOkRetry403 storeFull).1 =
        ApiResult.error
          (jsOr envOkRetry403.retry.detail "Access forbidden. This endpoint requires admin privileges.")
          403 ∧
      (apiRequest envOkRetry403 storeFull).2.store.access.isSome = true ∧
      (apiRequest envOkRetry403 storeFull).2.store.refresh.isSome = true) :=
  ⟨(apiRequest_403_authorization_error envForbidden storeFull payloadNew).1 (by decide),
   (apiRequest_403_authorization_error envOkRetry403 storeFull payloadNew).2
      (by decide) (by decide) (by decide) rfl (by decide) (by decide)⟩

/-- C10: on any response status other than 401 — 2xx, 204, or any other
failure — `apiRequest` leaves the token store untouched, issues no refresh
call, dispatches no refresh event, and performs no redirect. -/
theorem apiRequest_non401_frame
    (env : Env) (store : Store)
    (hne : env.first.status ≠ 401) :
    (apiRequest env store).2.store = store ∧
    (apiRequest env store).2.refreshCalls = 0 ∧
    (apiRequest env store).2.events = 0 ∧
    (apiRequest env store).2.redirects = 0 := by
  simp [apiRequest, hne]

/-- Witness for C10 at a concrete 204 environment. -/
theorem apiRequest_non401_frame_witness :
    (apiRequest
        { first := { status := 204, detail := none, statusText := "No Content" },
          refreshO := RefreshOutcome.notOk 400 none "Bad Request",
          retry := { status := 200, detail := none, statusText := "OK" },
          inBrowser := true, pathname := "/dashboard" }
        storeFull).2.store = storeFull ∧
    (apiRequest
        { first := { status := 204, detail := none, statusText := "No Content" },
          refreshO := RefreshOutcome.notOk 400 none "Bad Request",
          retry := { status := 200, detail := none, statusText := "OK" },
          inBrowser := true, pathname := "/dashboard" }
        storeFull).2.refreshCalls = 0 ∧
    (apiRequest
        { first := { status := 204, detail := none, statusText := "No Content" },
          refreshO := RefreshOutcome.notOk 400 none "Bad Request",
          retry := { status := 200, detail := none, statusText := "OK" },
          inBrowser := true, pathname := "/dashboard" }
        storeFull).2.events = 0 ∧
    (apiRequest
        { first := { status := 204, detail := none, statusText := "No Content" },
          refreshO := RefreshOutcome.notOk 400 none "Bad Request",
          retry := { status := 200, detail := none, statusText := "OK" },
          inBrowser := true, pathname := "/dashboard" }
        storeFull).2.redirects = 0 :=
  apiRequest_non401_frame _ storeFull (by decide)

/-- JS `token.split(".")` on the character list of the token. -/
def splitOnDot : List Char → List (List Char)
  | [] => [[]]
  | c :: rest =>
    if c = '.' then [] :: splitOnDot rest
    else
      match splitOnDot rest with
      | h :: t => (c :: h) :: t
      | [] => [[c]]

/-- The standard base64 alphabet, index → character. -/
def b64Std (n : Nat) : Char :=
  if n < 26 then Char.ofNat (65 + n)
  else if n < 52 then Char.ofNat (97 + (n - 26))
  else if n < 62 then Char.ofNat (48 + (n - 52))
  else if n = 62 then '+' else '/'

/-- The standard base64 alphabet, character → index (`none` off-alphabet). -/
def b64Idx (c : Char) : Option Nat :=
  if 'A' ≤ c ∧ c ≤ 'Z' then some (c.toNat - 65)
  else if 'a' ≤ c ∧ c ≤ 'z' then some (c.toNat - 97 + 26)
  else if '0' ≤ c ∧ c ≤ '9' then some (c.toNat - 48 + 52)
  else if c = '+' then some 62
  else if c = '/' then some 63
  else none

/-- ASCII whitespace removed by forgiving-base64 (`atob`). -/
def isB64Ws (c : Char) : Bool :=
  c = '\t' || c = '\n' || c = '\x0c' || c = '\r' || c = ' '

/-- Forgiving-base64 padding removal: when the length is a multiple of 4,
drop one or two trailing `=`. -/
def stripPad (l : List Char) : List Char :=
  if l.length % 4 = 0 then
    match l.reverse with
    | '=' :: '=' :: r => r.reverse
    | '=' :: r => r.reverse
    | _ => l
  else l

/-- Forgiving-base64 group decoding: full 4-character groups yield 3 bytes;
a trailing group of 2 or 3 characters yields 1 or 2 bytes with the leftover
bits discarded; a trailing single character is a failure. -/
def decodeGroups : List Char → Option (List Nat)
  | [] => some []
  | [_] => none
  | [c1, c2] => do
    let i1 ← b64Idx c1
    let i2 ← b64Idx c2
    pure [i1 * 4 + i2 / 16]
  | [c1, c2, c3] => do
    let i1 ← b64Idx c1
    let i2 ← b64Idx c2
    let i3 ← b64Idx c3
    pure [i1 * 4 + i2 / 16, i2 % 16 * 16 + i3 / 4]
  | c1 :: c2 :: c3 :: c4 :: rest => do
    let i1 ← b64Idx c1
    let i2 ← b64Idx c2
    let i3 ← b64Idx c3
    let i4 ← b64Idx c4
    let bs ← decodeGroups rest
    pure ((i1 * 4 + i2 / 16) :: (i2 % 16 * 16 + i3 / 4) :: (i3 % 4 * 64 + i4) :: bs)

/-- `window.atob` on a character list, per the WHATWG forgiving-base64
decode: strip ASCII whitespace, strip permitted trailing padding, fail when
the remaining length is `≡ 1 (mod 4)` or any character is off-alphabet,
otherwise decode to a byte list. -/
def atob (s : List Char) : Option (List Nat) :=
  let d0 := s.filter (fun c => !isB64Ws c)
  let d1 := stripPad d0
  if d1.length % 4 = 1 then none else decodeGroups d1

/-- The two global replacements applied before `atob` (dash becomes plus,
underscore becomes slash), as a character map. -/
def urlToStd (c : Char) : Char :=
  if c = '-' then '+' else if c = '_' then '/' else c

/-- base64 → base64url character map (standard JWT segment alphabet). -/
def stdToUrl (c : Char) : Char :=
  if c = '+' then '-' else if c = '/' then '_' else c

/-- The percent-encode-then-`decodeURIComponent` pipeline applied to
`atob`'s byte output: strict UTF-8 decoding of the byte list, failing (as
`decodeURIComponent` throws `URIError`) on any ill-formed sequence,
overlong form, or surrogate code point. The fuel (first argument) only
bounds recursion depth and is always passed as `length + 1`, which
suffices. -/
def utf8DecodeAux : Nat → List Nat → Option (List Char)
  | 0, _ => none
  | _ + 1, [] => some []
  | f + 1, b1 :: rest =>
    if b1 < 0x80 then
      (Char.ofNat b1 :: ·) <$> utf8DecodeAux f rest
    else if b1 < 0xC2 then none
    else if b1 < 0xE0 then
      match rest with
      | b2 :: rest2 =>
        if 0x80 ≤ b2 ∧ b2 < 0xC0 then
          (Char.ofNat ((b1 - 0xC0) * 64 + (b2 - 0x80)) :: ·) <$> utf8DecodeAux f rest2
        else none
      | [] => none
    else if b1 < 0xF0 then
      match rest with
      | b2 :: b3 :: rest3 =>
        if (0x80 ≤ b2 ∧ b2 < 0xC0) ∧ (0x80 ≤ b3 ∧ b3 < 0xC0) ∧
            (b1 = 0xE0 → 0xA0 ≤ b2) ∧ (b1 = 0xED → b2 < 0xA0) then
          (Char.ofNat ((b1 - 0xE0) * 4096 + (b2 - 0x80) * 64 + (b3 - 0x80)) :: ·)
            <$> utf8DecodeAux f rest3
        else none
      | _ => none
    else if b1 < 0xF5 then
      match rest with
      | b2 :: b3 :: b4 :: rest4 =>
        if (0x80 ≤ b2 ∧ b2 < 0xC0) ∧ (0x80 ≤ b3 ∧ b3 < 0xC0) ∧ (0x80 ≤ b4 ∧ b4 < 0xC0) ∧
            (b1 = 0xF0 → 0x90 ≤ b2) ∧ (b1 = 0xF4 → b2 < 0x90) then
          (Char.ofNat ((b1 - 0xF0) * 262144 + (b2 - 0x80) * 4096 + (b3 - 0x80) * 64 + (b4 - 0x80)) :: ·)
            <$> utf8DecodeAux f rest4
        else none
      | _ => none
    else none

/-- UTF-8 decoding of a byte list (see `utf8DecodeAux`). -/
def utf8Decode (bs : List Nat) : Option (List Char) :=
  utf8DecodeAux (bs.length + 1) bs

/-- Atomic JSON values. The model covers the JSON fragment exercised by the
JWT claims pipeline: numbers are integer numerals (no fraction or exponent
part). -/
inductive JAtom where
  | null
  | bool (b : Bool)
  | num (n : Int)
  | str (s : String)
  deriving Repr, DecidableEq

/-- A parsed JSON value: an atom, or a flat object of atomic fields (the
shape of a JWT claims object). -/
inductive Json where
  | atom (a : JAtom)
  | obj (fields : List (String × JAtom))
  deriving Repr, DecidableEq

/-- JSON string escape sequences (`\uXXXX` is outside the modelled
fragment). -/
def escChar (c : Char) : Option Char :=
  if c = '"' then some '"'
  else if c = '\\' then some '\\'
  else if c = '/' then some '/'
  else if c = 'n' then some '\n'
  else if c = 't' then some '\t'
  else if c = 'r' then some '\r'
  else if c = 'b' then some (Char.ofNat 8)
  else if c = 'f' then some (Char.ofNat 12)
  else none

/-- Body of a JSON string literal after the opening quote: plain characters
up to the closing quote, escapes resolved, raw control characters rejected. -/
def parseStrBody : List Char → Option (List Char × List Char)
  | [] => none
  | c :: rest =>
    if c = '"' then some ([], rest)
    else if c = '\\' then
      match rest with
      | e :: rest2 =>
        match escChar e with
        | some ec => (fun p => (ec :: p.1, p.2)) <$> parseStrBody rest2
        | none => none
      | [] => none
    else if 0x20 ≤ c.toNat then
      (fun p => (c :: p.1, p.2)) <$> parseStrBody rest
    else none

/-- ASCII decimal digit test. -/
def isDigitC (c : Char) : Bool :=
  '0' ≤ c && c ≤ '9'

/-- Value of a nonempty digit run without a redundant leading zero, paired
with the remaining input. -/
def parseNatCore : List Char → List Char → Option (Nat × List Char)
  | [], _ => none
  | d :: ds1, rest =>
    if d = '0' ∧ ds1 ≠ [] then none
    else some ((d :: ds1).foldl (fun a c => a * 10 + (c.toNat - 48)) 0, rest)

/-- A JSON natural-number numeral: a nonempty digit run without a redundant
leading zero, returning its value and the remaining input. -/
def parseNat (l : List Char) : Option (Nat × List Char) :=
  parseNatCore (l.takeWhile isDigitC) (l.dropWhile isDigitC)

/-- A JSON atom, dispatched on the first character as `JSON.parse` does. -/
def parseAtom : List Char → Option (JAtom × List Char)
  | [] => none
  | c :: rest =>
    if c = 'n' then
      match rest with
      | 'u' :: 'l' :: 'l' :: r => some (JAtom.null, r)
      | _ => none
    else if c = 't' then
      match rest with
      | 'r' :: 'u' :: 'e' :: r => some (JAtom.bool true, r)
      | _ => none
    else if c = 'f' then
      match rest with
      | 'a' :: 'l' :: 's' :: 'e' :: r => some (JAtom.bool false, r)
      | _ => none
    else if c = '"' then
      (fun p => (JAtom.str (String.mk p.1), p.2)) <$> parseStrBody rest
    else if c = '-' then
      (fun p => (JAtom.num (-(p.1 : Int)), p.2)) <$> parseNat rest
    else
      (fun p => (JAtom.num ((p.1 : Nat) : Int), p.2)) <$> parseNat (c :: rest)

/-- The members of a JSON object after the opening brace, when the object is
nonempty: a comma-separated sequence of `"key": atom` pairs up to the
closing brace. The fuel argument bounds the number of pairs; callers pass
the input length, which always suffices. -/
def parsePairs : Nat → List Char → Option (List (String × JAtom) × List Char)
  | 0, _ => none
  | fuel + 1, l =>
    match l with
    | '"' :: rest =>
      match parseStrBody rest with
      | some (key, ':' :: rest2) =>
        match parseAtom rest2 with
        | some (v, ',' :: rest3) =>
          (fun p => ((String.mk key, v) :: p.1, p.2)) <$> parsePairs fuel rest3
        | some (v, '}' :: rest3) => some ([(String.mk key, v)], rest3)
        | _ => none
      | _ => none
    | _ => none

/-- A JSON value: a flat object or an atom. -/
def parseValue : List Char → Option (Json × List Char)
  | '{' :: rest =>
    match rest with
    | '}' :: rest1 => some (Json.obj [], rest1)
    | _ => (fun p => (Json.obj p.1, p.2)) <$> parsePairs rest.length rest
  | l => (fun p => (Json.atom p.1, p.2)) <$> parseAtom l

/-- `JSON.parse` over the modelled fragment: a value consuming the whole
input (no surrounding whitespace in the fragment), `none` where
`JSON.parse` throws. -/
def parseJson (l : List Char) : Option Json :=
  match parseValue l with
  | some (v, []) => some v
  | _ => none

/-- `decodeToken` (part_000 lines 19–34): take segment 1 of the
dot-separated token, map the base64url characters to the standard alphabet,
`atob` it, run the byte list through the percent-encoding and
`decodeURIComponent` pipeline (UTF-8 decoding), and `JSON.parse` the result.
Every failure along the way is caught and yields `null`; the function is
total and never raises to the caller. -/
def decodeToken (token : String) : Option Json :=
  match (splitOnDot token.toList)[1]? with
  | none => none
  | some base64Url =>
    match atob (base64Url.map urlToStd) with
    | none => none
    | some bytes =>
      match utf8Decode bytes with
      | none => none
      | some payload => parseJson payload

/-- `parseJwt` (api.ts lines 587–603): textually the same pipeline as
`decodeToken`, duplicated in the source. -/
def parseJwt (token : String) : Option Json :=
  match (splitOnDot token.toList)[1]? with
  | none => none
  | some base64Url =>
    match atob (base64Url.map urlToStd) with
    | none => none
    | some bytes =>
      match utf8Decode bytes with
      | none => none
      | some payload => parseJson payload

/-- Field lookup on a decoded payload, `none` when the payload is not an
object or lacks the key (JS `undefined`). Later duplicate keys shadow
earlier ones as in `JSON.parse`. -/
def Json.getField : Json → String → Option JAtom
  | Json.obj fields, k => (fields.reverse.find? (fun f => f.1 == k)).map (fun f => f.2)
  | Json.atom _, _ => none

/-- JS truthiness of an atomic JSON value. -/
def JAtom.truthy : JAtom → Bool
  | JAtom.null => false
  | JAtom.bool b => b
  | JAtom.num n => !(n == 0)
  | JAtom.str s => !(s == "")

/-- JS truthiness of a decoded payload (objects are truthy; `JSON.parse`
may also return an atom, e.g. `null`, which is falsy). -/
def Json.truthy : Json → Bool
  | Json.atom a => a.truthy
  | Json.obj _ => true

/-- `decoded.exp` when it is a number; `none` covers absent or non-numeric
`exp`, for which the JS comparison `decoded.exp * 1000 > Date.now()` is a
`NaN` comparison and false. -/
def Json.expNum (j : Json) : Option Int :=
  match j.getField "exp" with
  | some (JAtom.num n) => some n
  | _ => none

/-- `decoded.exp * 1000 > Date.now()` with `now` in epoch milliseconds. -/
def expFresh (j : Json) (now : Int) : Bool :=
  match j.expNum with
  | some e => decide (e * 1000 > now)
  | none => false

/-- `decoded.is_admin || false` as the boolean fed to `setIsAdmin`. -/
def Json.isAdminFlag (j : Json) : Bool :=
  match j.getField "is_admin" with
  | some a => a.truthy
  | none => false

/-- The SessionController's reactive state triple. -/
structure SessState where
  isAuthenticated : Bool
  isAdmin : Bool
  isLoading : Bool
  deriving Repr, DecidableEq

/-- `checkAuth` (part_000 lines 42–62) as a transition on the session state:
with a truthy stored access token whose decoded claims are truthy and
unexpired, authenticate with the decoded admin flag; with a token that is
missing the decode/expiry test, fire the (un-awaited) `refreshAuth()` and
leave the authentication flags at their prior values; with no token, reset
both flags. `setIsLoading(false)` runs on every path. The second component
reports whether `refreshAuth` was invoked (the only possible network call). -/
def checkAuth (s : SessState) (store : Store) (now : Int) : SessState × Bool :=
  if jsTruthy store.access then
    match decodeToken (store.access.getD "") with
    | some decoded =>
      if decoded.truthy && expFresh decoded now then
        ({ isAuthenticated := true, isAdmin := decoded.isAdminFlag, isLoading := false }, false)
      else
        ({ s with isLoading := false }, true)
    | none => ({ s with isLoading := false }, true)
  else
    ({ isAuthenticated := false, isAdmin := false, isLoading := false }, false)

/-- Outcome of the best-effort backend logout call. -/
inductive CallOutcome where
  | success
  | thrown (msg : String)
  deriving Repr, DecidableEq

/-- `logout` (part_000 lines 104–116): `try` the backend logout — a thrown
error is caught and only logged — then the `finally` block unconditionally
removes both tokens, clears the authentication flags (`isLoading` is not
touched), and navigates to `/login`. Returns the new session state, the new
store, and the navigation targets pushed. -/
def logout (s : SessState) (store : Store) (backend : CallOutcome) :
    SessState × Store × List String :=
  match backend with
  | CallOutcome.success =>
    ({ isAuthenticated := false, isAdmin := false, isLoading := s.isLoading },
      { access := none, refresh := none }, ["/login"])
  | CallOutcome.thrown _ =>
    ({ isAuthenticated := false, isAdmin := false, isLoading := s.isLoading },
      { access := none, refresh := none }, ["/login"])

/-- C7: `logout()` unconditionally ends with `isAuthenticated = false`,
`isAdmin = false`, both tokens removed from the store, and a navigation to
`/login`, whether the backend logout call succeeds or throws. -/
theorem logout_always_clears (s : SessState) (store : Store) (backend : CallOutcome) :
    (logout s store backend).1.isAuthenticated = false ∧
    (logout s store backend).1.isAdmin = false ∧
    (logout s store backend).2.1 = { access := none, refresh := none } ∧
    (logout s store backend).2.2 = ["/login"] := by
  cases backend <;> simp [logout]

/-- Decimal digit characters of `n`, most significant first; the fuel (first
argument) bounds the number of digits and is always passed as `n + 1`. -/
def natCharsAux : Nat → Nat → List Char
  | 0, _ => []
  | f + 1, n =>
    if n < 10 then [Char.ofNat (48 + n)]
    else natCharsAux f (n / 10) ++ [Char.ofNat (48 + n % 10)]

/-- The canonical decimal numeral of `n`, as a JWT issuer prints `exp`. -/
def natChars (n : Nat) : List Char := natCharsAux (n + 1) n

/-- One-step unfolding of `natCharsAux` at positive fuel. -/
theorem natCharsAux_succ (f n : Nat) : natCharsAux (f + 1) n =
    if n < 10 then [Char.ofNat (48 + n)]
    else natCharsAux f (n / 10) ++ [Char.ofNat (48 + n % 10)] := rfl

/-- Code point of a digit character. -/
theorem digit_toNat : ∀ m, m < 10 → (Char.ofNat (48 + m)).toNat = 48 + m := by decide

/-- Digit characters pass `isDigitC`. -/
theorem digit_isDigitC : ∀ m, m < 10 → isDigitC (Char.ofNat (48 + m)) = true := by decide

/-- A nonzero digit character is not `'0'`. -/
theorem digit_ne_zero : ∀ m, m < 10 → 1 ≤ m → Char.ofNat (48 + m) ≠ '0' := by decide

/-- Value of the digit-accumulating fold over a numeral. -/
theorem natCharsAux_foldl (f : Nat) : ∀ n a, n < 10 ^ (f + 1) →
    (natCharsAux (f + 1) n).foldl (fun acc c => acc * 10 + (c.toNat - 48)) a =
      a * 10 ^ (natCharsAux (f + 1) n).length + n := by
  induction f with
  | zero =>
    intro n a hn
    have h10 : n < 10 := by simpa using hn
    rw [natCharsAux_succ, if_pos h10]
    simp [digit_toNat n h10]
  | succ f ih =>
    intro n a hn
    by_cases h10 : n < 10
    · rw [natCharsAux_succ, if_pos h10]
      simp [digit_toNat n h10]
    · have hdiv : n / 10 < 10 ^ (f + 1) := by
        rw [Nat.div_lt_iff_lt_mul (by norm_num)]
        calc n < 10 ^ (f + 1 + 1) := hn
        _ = 10 ^ (f + 1) * 10 := by ring
      rw [natCharsAux_succ, if_neg h10]
      rw [List.foldl_append, ih (n / 10) a hdiv]
      simp [digit_toNat (n % 10) (by omega)]
      rw [pow_succ]
      ring_nf
      omega

/-- Every character of a numeral is a digit. -/
theorem natCharsAux_digits (f : Nat) : ∀ n, ∀ c ∈ natCharsAux (f + 1) n, isDigitC c = true := by
  induction f with
  | zero =>
    intro n c hc
    rw [natCharsAux_succ] at hc
    by_cases h10 : n < 10
    · rw [if_pos h10] at hc
      simp at hc
      exact hc ▸ digit_isDigitC n h10
    · rw [if_neg h10] at hc
      simp [natCharsAux] at hc
      exact hc ▸ digit_isDigitC (n % 10) (by omega)
  | succ f ih =>
    intro n c hc
    rw [natCharsAux_succ] at hc
    by_cases h10 : n < 10
    · rw [if_pos h10] at hc
      simp at hc
      exact hc ▸ digit_isDigitC n h10
    · rw [if_neg h10] at hc
      simp at hc
      rcases hc with hc | hc
      · exact ih (n / 10) c hc
      · exact hc ▸ digit_isDigitC (n % 10) (by omega)

/-- Numerals are nonempty (at positive fuel). -/
theorem natCharsAux_ne_nil (f n : Nat) : natCharsAux (f + 1) n ≠ [] := by
  rw [natCharsAux_succ]
  by_cases h10 : n < 10 <;> simp [h10]

/-- The numeral of a positive number does not start with `'0'` when the fuel
covers all digits. -/
theorem natCharsAux_head (f : Nat) : ∀ n, 1 ≤ n → n < 10 ^ (f + 1) →
    ∀ c t, natCharsAux (f + 1) n = c :: t → c ≠ '0' := by
  induction f with
  | zero =>
    intro n h1 hn c t hEq
    have h10 : n < 10 := by simpa using hn
    rw [natCharsAux_succ, if_pos h10] at hEq
    cases hEq
    exact digit_ne_zero n h10 h1
  | succ f ih =>
    intro n h1 hn c t hEq
    by_cases h10 : n < 10
    · rw [natCharsAux_succ, if_pos h10] at hEq
      cases hEq
      exact digit_ne_zero n h10 h1
    · rw [natCharsAux_succ, if_neg h10] at hEq
      have hdiv : n / 10 < 10 ^ (f + 1) := by
        rw [Nat.div_lt_iff_lt_mul (by norm_num)]
        calc n < 10 ^ (f + 1 + 1) := hn
        _ = 10 ^ (f + 1) * 10 := by ring
      cases hrec : natCharsAux (f + 1) (n / 10) with
      | nil => exact absurd hrec (natCharsAux_ne_nil f (n / 10))
      | cons c0 t0 =>
        rw [hrec] at hEq
        simp at hEq
        exact hEq.1 ▸ ih (n / 10) (by omega) hdiv c0 t0 hrec

/-- `takeWhile`/`dropWhile` over a run of satisfying characters followed by
a non-satisfying (or empty) remainder. -/
theorem takeWhile_all_append (p : Char → Bool) (l rest : List Char)
    (hl : ∀ c ∈ l, p c = true) (hr : ∀ c, rest.head? = some c → p c = false) :
    (l ++ rest).takeWhile p = l ∧ (l ++ rest).dropWhile p = rest := by
  induction l with
  | nil =>
    cases rest with
    | nil => simp
    | cons c cs => simp [List.takeWhile_cons, List.dropWhile_cons, hr c rfl]
  | cons c cs ih =>
    have hc := hl c (by simp)
    have ihr := ih (fun x hx => hl x (by simp [hx]))
    simp [List.takeWhile_cons, List.dropWhile_cons, hc, ihr.1, ihr.2]

/-- `parseNat` consumes exactly the canonical numeral of `n` and returns
`n`, when the remainder does not begin with a digit. -/
theorem parseNat_natChars (n : Nat) (rest : List Char)
    (hr : ∀ c, rest.head? = some c → isDigitC c = false) :
    parseNat (natChars n ++ rest) = some (n, rest) := by
  have hfuel : n < 10 ^ (n + 1) := by
    calc n < 10 ^ n := Nat.lt_pow_self (by norm_num) n
    _ ≤ 10 ^ (n + 1) := Nat.pow_le_pow_right (by norm_num) (by omega)
  have htw := takeWhile_all_append isDigitC (natChars n) rest (natCharsAux_digits n n) hr
  unfold parseNat
  rw [htw.1, htw.2]
  have hfold := natCharsAux_foldl n n 0 hfuel
  rcases hn : natChars n with _ | ⟨c, t⟩
  · exact absurd hn (natCharsAux_ne_nil n n)
  · rw [show natCharsAux (n + 1) n = natChars n from rfl, hn] at hfold
    by_cases h1 : 1 ≤ n
    · have hc0 : c ≠ '0' := natCharsAux_head n n h1 hfuel c t hn
      simp only [parseNatCore, if_neg (by simp [hc0] : ¬(c = '0' ∧ t ≠ []))]
      simp at hfold
      simp [hfold]
    · have hz : n = 0 := by omega
      subst hz
      have : c = '0' ∧ t = [] := by
        have : natChars 0 = ['0'] := rfl
        rw [this] at hn
        exact ⟨(List.cons.injEq _ _ _ _ ▸ hn).1.symm ▸ rfl, by injection hn with h1 h2; exact h2.symm⟩
      obtain ⟨rfl, rfl⟩ := this
      simp [parseNatCore]

/-- Characters allowed in the `sub` claim of the modelled issuer: printable
ASCII without quote or backslash. -/
def simpleChar (c : Char) : Bool :=
  (0x20 ≤ c.toNat && c.toNat < 128) && !(c == '"') && !(c == '\\')

/-- `parseStrBody` consumes a run of simple characters up to the closing
quote. -/
theorem parseStrBody_simple (s rest : List Char) (h : ∀ c ∈ s, simpleChar c = true) :
    parseStrBody (s ++ '"' :: rest) = some (s, rest) := by
  induction s with
  | nil => rw [List.nil_append, parseStrBody.eq_def]; simp
  | cons c cs ih =>
    have hc := h c (by simp)
    simp only [simpleChar, Bool.and_eq_true, decide_eq_true_eq, Bool.not_eq_true',
      beq_eq_false_iff_ne, ne_eq] at hc
    obtain ⟨⟨⟨hlo, _⟩, hq⟩, hb⟩ := hc
    rw [List.cons_append, parseStrBody.eq_def]
    simp [hq, hb, hlo, ih (fun x hx => h x (by simp [hx]))]

/-- `parseAtom` on a string literal of simple characters. -/
theorem parseAtom_str (s rest : List Char) (h : ∀ c ∈ s, simpleChar c = true) :
    parseAtom ('"' :: (s ++ '"' :: rest)) = some (JAtom.str (String.mk s), rest) := by
  simp [parseAtom, parseStrBody_simple s rest h]

/-- `parseAtom` on a boolean literal. -/
theorem parseAtom_bool (b : Bool) (rest : List Char) :
    parseAtom ((if b then ['t', 'r', 'u', 'e'] else ['f', 'a', 'l', 's', 'e']) ++ rest) =
      some (JAtom.bool b, rest) := by
  cases b <;> simp [parseAtom]

/-- `parseAtom` on a canonical numeral. -/
theorem parseAtom_nat (n : Nat) (rest : List Char)
    (hr : ∀ c, rest.head? = some c → isDigitC c = false) :
    parseAtom (natChars n ++ rest) = some (JAtom.num (n : Int), rest) := by
  rcases hn : natChars n with _ | ⟨c, t⟩
  · exact absurd hn (natCharsAux_ne_nil n n)
  · have hmem : c ∈ natChars n := by rw [hn]; simp
    have hcd : isDigitC c = true := natCharsAux_digits n n c hmem
    have h1 : ¬c = 'n' := fun e => absurd hcd (by subst e; decide)
    have h2 : ¬c = 't' := fun e => absurd hcd (by subst e; decide)
    have h3 : ¬c = 'f' := fun e => absurd hcd (by subst e; decide)
    have h4 : ¬c = '"' := fun e => absurd hcd (by subst e; decide)
    have h5 : ¬c = '-' := fun e => absurd hcd (by subst e; decide)
    have key := parseNat_natChars n rest hr
    rw [hn] at key
    simp only [List.cons_append] at key ⊢
    simp [parseAtom, h1, h2, h3, h4, h5, key]

/-- The claims object the modelled issuer encodes. -/
def claimsJson (sub : String) (admin : Bool) (exp : Nat) : Json :=
  Json.obj [("sub", JAtom.str sub), ("is_admin", JAtom.bool admin), ("exp", JAtom.num (exp : Int))]

/-- The JSON text of the claims object:
an object with the members `sub` (string), `is_admin` (boolean) and `exp`
(numeral), in that order, without whitespace. -/
def encClaimsJson (sub : String) (admin : Bool) (exp : Nat) : List Char :=
  '{' :: '"' :: 's' :: 'u' :: 'b' :: '"' :: ':' :: '"' ::
    (sub.toList ++
      ('"' :: ',' :: '"' :: 'i' :: 's' :: '_' :: 'a' :: 'd' :: 'm' :: 'i' :: 'n' :: '"' :: ':' ::
        ((if admin then ['t', 'r', 'u', 'e'] else ['f', 'a', 'l', 's', 'e']) ++
          (',' :: '"' :: 'e' :: 'x' :: 'p' :: '"' :: ':' :: (natChars exp ++ ['}'])))))

/-- `parsePairs` recovers the three members of the claims text (stated over
the character list `subL` of the subject). -/
theorem parsePairs_claims (fuel : Nat) (subL : List Char) (admin : Bool) (exp : Nat)
    (hsub : ∀ c ∈ subL, simpleChar c = true) :
    parsePairs (fuel + 3)
      ('"' :: 's' :: 'u' :: 'b' :: '"' :: ':' :: '"' ::
        (subL ++
          ('"' :: ',' :: '"' :: 'i' :: 's' :: '_' :: 'a' :: 'd' :: 'm' :: 'i' :: 'n' :: '"' :: ':' ::
            ((if admin then ['t', 'r', 'u', 'e'] else ['f', 'a', 'l', 's', 'e']) ++
              (',' :: '"' :: 'e' :: 'x' :: 'p' :: '"' :: ':' :: (natChars exp ++ ['}'])))))) =
      some ([("sub", JAtom.str (String.mk subL)), ("is_admin", JAtom.bool admin),
        ("exp", JAtom.num (exp : Int))], []) := by
  have hstr := parseAtom_str subL
    (',' :: '"' :: 'i' :: 's' :: '_' :: 'a' :: 'd' :: 'm' :: 'i' :: 'n' :: '"' :: ':' ::
      ((if admin then ['t', 'r', 'u', 'e'] else ['f', 'a', 'l', 's', 'e']) ++
        (',' :: '"' :: 'e' :: 'x' :: 'p' :: '"' :: ':' :: (natChars exp ++ ['}'])))) hsub
  have hbool := parseAtom_bool admin
    (',' :: '"' :: 'e' :: 'x' :: 'p' :: '"' :: ':' :: (natChars exp ++ ['}']))
  have hnum := parseAtom_nat exp ['}'] (by intro c hc; cases hc; decide)
  have hkey1 := parseStrBody_simple ['s', 'u', 'b']
    (':' :: '"' ::
      (subL ++
        ('"' :: ',' :: '"' :: 'i' :: 's' :: '_' :: 'a' :: 'd' :: 'm' :: 'i' :: 'n' :: '"' :: ':' ::
          ((if admin then ['t', 'r', 'u', 'e'] else ['f', 'a', 'l', 's', 'e']) ++
            (',' :: '"' :: 'e' :: 'x' :: 'p' :: '"' :: ':' :: (natChars exp ++ ['}']))))))
    (by decide)
  have hkey2 := parseStrBody_simple ['i', 's', '_', 'a', 'd', 'm', 'i', 'n']
    (':' ::
      ((if admin then ['t', 'r', 'u', 'e'] else ['f', 'a', 'l', 's', 'e']) ++
        (',' :: '"' :: 'e' :: 'x' :: 'p' :: '"' :: ':' :: (natChars exp ++ ['}']))))
    (by decide)
  have hkey3 := parseStrBody_simple ['e', 'x', 'p'] (':' :: (natChars exp ++ ['}'])) (by decide)
  simp only [List.cons_append, List.nil_append] at hkey1 hkey2 hkey3
  have hk1 : String.mk ['s', 'u', 'b'] = "sub" := rfl
  have hk2 : String.mk ['i', 's', '_', 'a', 'd', 'm', 'i', 'n'] = "is_admin" := rfl
  have hk3 : String.mk ['e', 'x', 'p'] = "exp" := rfl
  rw [parsePairs.eq_def]
  simp only []
  rw [hkey1]
  simp only [hstr, hk1]
  rw [parsePairs.eq_def]
  simp only []
  rw [hkey2]
  simp only [hbool, hk2]
  rw [parsePairs.eq_def]
  simp only []
  rw [hkey3]
  simp only [hnum, hk3]
  rfl

/-- `parsePairs_claims` for any sufficient fuel. -/
theorem parsePairs_claims_any (fuel : Nat) (subL : List Char) (admin : Bool) (exp : Nat)
    (hf : 3 ≤ fuel) (hsub : ∀ c ∈ subL, simpleChar c = true) :
    parsePairs fuel
      ('"' :: 's' :: 'u' :: 'b' :: '"' :: ':' :: '"' ::
        (subL ++
          ('"' :: ',' :: '"' :: 'i' :: 's' :: '_' :: 'a' :: 'd' :: 'm' :: 'i' :: 'n' :: '"' :: ':' ::
            ((if admin then ['t', 'r', 'u', 'e'] else ['f', 'a', 'l', 's', 'e']) ++
              (',' :: '"' :: 'e' :: 'x' :: 'p' :: '"' :: ':' :: (natChars exp ++ ['}'])))))) =
      some ([("sub", JAtom.str (String.mk subL)), ("is_admin", JAtom.bool admin),
        ("exp", JAtom.num (exp : Int))], []) := by
  obtain ⟨f, rfl⟩ : ∃ f, fuel = f + 3 := ⟨fuel - 3, by omega⟩
  exact parsePairs_claims f subL admin exp hsub

/-- `parseValue` recovers the claims object from the claims text. -/
theorem parseValue_claims (sub : String) (admin : Bool) (exp : Nat)
    (hsub : ∀ c ∈ sub.toList, simpleChar c = true) :
    parseValue (encClaimsJson sub admin exp) = some (claimsJson sub admin exp, []) := by
  unfold encClaimsJson
  rw [parseValue.eq_def]
  simp only []
  rw [parsePairs_claims_any _ sub.toList admin exp
    (by simp only [List.length_cons]; omega) hsub]
  have hmk : String.mk sub.toList = sub := rfl
  simp [claimsJson, hmk]

/-- `parseJson` recovers the claims object from the claims text. -/
theorem parseJson_claims (sub : String) (admin : Bool) (exp : Nat)
    (hsub : ∀ c ∈ sub.toList, simpleChar c = true) :
    parseJson (encClaimsJson sub admin exp) = some (claimsJson sub admin exp) := by
  unfold parseJson
  rw [parseValue_claims sub admin exp hsub]

/-- Standard base64 encoding of a byte list, without padding, as a JWT
issuer emits segments (before the url-alphabet substitution). -/
def encB64 : List Nat → List Char
  | [] => []
  | [b1] => [b64Std (b1 / 4), b64Std (b1 % 4 * 16)]
  | [b1, b2] => [b64Std (b1 / 4), b64Std (b1 % 4 * 16 + b2 / 16), b64Std (b2 % 16 * 4)]
  | b1 :: b2 :: b3 :: rest =>
    b64Std (b1 / 4) :: b64Std (b1 % 4 * 16 + b2 / 16) ::
      b64Std (b2 % 16 * 4 + b3 / 64) :: b64Std (b3 % 64) :: encB64 rest

/-- Decoding a standard-alphabet character recovers its index. -/
theorem b64Idx_b64Std : ∀ n, n < 64 → b64Idx (b64Std n) = some n := by decide

/-- Alphabet characters are not whitespace. -/
theorem b64Std_notWs : ∀ n, n < 64 → isB64Ws (b64Std n) = false := by decide

/-- Alphabet characters are not the padding character. -/
theorem b64Std_ne_pad : ∀ n, n < 64 → b64Std n ≠ '=' := by decide

/-- The url-alphabet substitution is undone by the pre-`atob` replacement. -/
theorem b64Std_url_round : ∀ n, n < 64 → urlToStd (stdToUrl (b64Std n)) = b64Std n := by decide

/-- Url-alphabet characters are never a dot. -/
theorem b64Std_url_ne_dot : ∀ n, n < 64 → stdToUrl (b64Std n) ≠ '.' := by decide

/-- Every character emitted by `encB64` is an alphabet character, when the
input is made of bytes. -/
theorem encB64_chars (bs : List Nat) (h : ∀ b ∈ bs, b < 256) :
    ∀ c ∈ encB64 bs, ∃ n, n < 64 ∧ c = b64Std n := by
  induction bs using encB64.induct with
  | case1 => simp [encB64]
  | case2 b1 =>
    have h1 : b1 < 256 := h b1 (by simp)
    intro c hc
    simp [encB64] at hc
    rcases hc with rfl | rfl
    · exact ⟨b1 / 4, by omega, rfl⟩
    · exact ⟨b1 % 4 * 16, by omega, rfl⟩
  | case3 b1 b2 =>
    have h1 : b1 < 256 := h b1 (by simp)
    have h2 : b2 < 256 := h b2 (by simp)
    intro c hc
    simp [encB64] at hc
    rcases hc with rfl | rfl | rfl
    · exact ⟨b1 / 4, by omega, rfl⟩
    · exact ⟨b1 % 4 * 16 + b2 / 16, by omega, rfl⟩
    · exact ⟨b2 % 16 * 4, by omega, rfl⟩
  | case4 b1 b2 b3 rest ih =>
    have h1 : b1 < 256 := h b1 (by simp)
    have h2 : b2 < 256 := h b2 (by simp)
    have h3 : b3 < 256 := h b3 (by simp)
    intro c hc
    simp [encB64] at hc
    rcases hc with rfl | rfl | rfl | rfl | hc
    · exact ⟨b1 / 4, by omega, rfl⟩
    · exact ⟨b1 % 4 * 16 + b2 / 16, by omega, rfl⟩
    · exact ⟨b2 % 16 * 4 + b3 / 64, by omega, rfl⟩
    · exact ⟨b3 % 64, by omega, rfl⟩
    · exact ih (fun b hb => h b (by simp [hb])) c hc

/-- The unpadded encoding never has length `≡ 1 (mod 4)`. -/
theorem encB64_len_mod (bs : List Nat) : (encB64 bs).length % 4 ≠ 1 := by
  induction bs using encB64.induct with
  | case1 => simp [encB64]
  | case2 b1 => simp [encB64]
  | case3 b1 b2 => simp [encB64]
  | case4 b1 b2 b3 rest ih => simp [encB64] at ih ⊢; omega

/-- Decoding inverts the encoding on byte lists. -/
theorem decodeGroups_encB64 (bs : List Nat) (h : ∀ b ∈ bs, b < 256) :
    decodeGroups (encB64 bs) = some bs := by
  induction bs using encB64.induct with
  | case1 => rfl
  | case2 b1 =>
    have h1 : b1 < 256 := h b1 (by simp)
    simp [encB64, decodeGroups, b64Idx_b64Std (b1 / 4) (by omega),
      b64Idx_b64Std (b1 % 4 * 16) (by omega)]
    omega
  | case3 b1 b2 =>
    have h1 : b1 < 256 := h b1 (by simp)
    have h2 : b2 < 256 := h b2 (by simp)
    simp [encB64, decodeGroups, b64Idx_b64Std (b1 / 4) (by omega),
      b64Idx_b64Std (b1 % 4 * 16 + b2 / 16) (by omega),
      b64Idx_b64Std (b2 % 16 * 4) (by omega)]
    omega
  | case4 b1 b2 b3 rest ih =>
    have h1 : b1 < 256 := h b1 (by simp)
    have h2 : b2 < 256 := h b2 (by simp)
    have h3 : b3 < 256 := h b3 (by simp)
    have ih2 := ih (fun b hb => h b (by simp [hb]))
    simp [encB64, decodeGroups, b64Idx_b64Std (b1 / 4) (by omega),
      b64Idx_b64Std (b1 % 4 * 16 + b2 / 16) (by omega),
      b64Idx_b64Std (b2 % 16 * 4 + b3 / 64) (by omega),
      b64Idx_b64Std (b3 % 64) (by omega), ih2]
    omega

/-- Filtering out whitespace is the identity on whitespace-free lists. -/
theorem filter_not_ws (l : List Char) (h : ∀ c ∈ l, isB64Ws c = false) :
    l.filter (fun c => !isB64Ws c) = l := by
  induction l with
  | nil => rfl
  | cons c cs ih =>
    simp [List.filter_cons, h c (by simp), ih (fun x hx => h x (by simp [hx]))]

/-- Padding removal is the identity on padding-free lists. -/
theorem stripPad_no_pad (l : List Char) (h : '=' ∉ l) : stripPad l = l := by
  unfold stripPad
  split
  · split
    · next r heq =>
      exact absurd (by rw [← List.mem_reverse, heq]; simp) h
    · next r heq =>
      exact absurd (by rw [← List.mem_reverse, heq]; simp) h
    · rfl
  · rfl

/-- `atob` inverts `encB64` on byte lists. -/
theorem atob_encB64 (bs : List Nat) (h : ∀ b ∈ bs, b < 256) :
    atob (encB64 bs) = some bs := by
  have hchars := encB64_chars bs h
  have hws : ∀ c ∈ encB64 bs, isB64Ws c = false := by
    intro c hc
    obtain ⟨n, hn, rfl⟩ := hchars c hc
    exact b64Std_notWs n hn
  have hpad : '=' ∉ encB64 bs := by
    intro hm
    obtain ⟨n, hn, hEq⟩ := hchars '=' hm
    exact b64Std_ne_pad n hn hEq.symm
  unfold atob
  simp only [filter_not_ws _ hws, stripPad_no_pad _ hpad,
    if_neg (encB64_len_mod bs)]
  exact decodeGroups_encB64 bs h

/-- Mapping a function that fixes every element is the identity. -/
theorem map_id_of_mem {α : Type} (f : α → α) (l : List α) (h : ∀ x ∈ l, f x = x) :
    l.map f = l := by
  induction l with
  | nil => rfl
  | cons a t ih => simp [h a (by simp), ih (fun x hx => h x (by simp [hx]))]

/-- The pre-`atob` replacement undoes the url-alphabet substitution on an
encoded segment. -/
theorem map_url_round (bs : List Nat) (h : ∀ b ∈ bs, b < 256) :
    ((encB64 bs).map stdToUrl).map urlToStd = encB64 bs := by
  rw [List.map_map]
  apply map_id_of_mem
  intro c hc
  obtain ⟨n, hn, rfl⟩ := encB64_chars bs h c hc
  exact b64Std_url_round n hn

/-- ASCII bytes decode to their code points. -/
theorem utf8DecodeAux_ascii (f : Nat) : ∀ bs : List Nat, bs.length < f →
    (∀ b ∈ bs, b < 128) → utf8DecodeAux f bs = some (bs.map Char.ofNat) := by
  induction f with
  | zero => intro bs hlen; omega
  | succ f ih =>
    intro bs hlen hb
    cases bs with
    | nil => rfl
    | cons b rest =>
      have hb1 : b < 128 := hb b (by simp)
      have ihr := ih rest (by simp at hlen; omega) (fun x hx => hb x (by simp [hx]))
      simp [utf8DecodeAux, hb1, ihr]

/-- ASCII bytes decode to their code points. -/
theorem utf8Decode_ascii (bs : List Nat) (h : ∀ b ∈ bs, b < 128) :
    utf8Decode bs = some (bs.map Char.ofNat) := by
  exact utf8DecodeAux_ascii (bs.length + 1) bs (by omega) h

/-- Splitting a dot-free list yields a single segment. -/
theorem splitOnDot_no_dot (l : List Char) (h : '.' ∉ l) : splitOnDot l = [l] := by
  induction l with
  | nil => rfl
  | cons c cs ih =>
    simp only [List.mem_cons, not_or] at h
    have hc : ¬c = '.' := fun e => h.1 e.symm
    simp [splitOnDot, hc, ih h.2]

/-- Splitting peels off a dot-free prefix at its following dot. -/
theorem splitOnDot_append (h p : List Char) (hh : '.' ∉ h) :
    splitOnDot (h ++ '.' :: p) = h :: splitOnDot p := by
  induction h with
  | nil => simp [splitOnDot]
  | cons c cs ih =>
    simp only [List.mem_cons, not_or] at hh
    have hc : ¬c = '.' := fun e => hh.1 e.symm
    simp [splitOnDot, hc, ih hh.2]

/-- Segment 1 of a three-segment token is its payload. -/
theorem splitOnDot_get1 (hdr pl s : List Char) (hh : '.' ∉ hdr) (hp : '.' ∉ pl) :
    (splitOnDot (hdr ++ '.' :: (pl ++ '.' :: s)))[1]? = some pl := by
  rw [splitOnDot_append hdr _ hh, splitOnDot_append pl s hp]
  simp

/-- A JWT over the canonical claims object: header segment `e30` (the
base64 of the empty object), the base64url payload encoding the claims
text, and an opaque signature segment `sig`, separated by dots, without
padding — the shape every standard JWT issuer emits. -/
def encJwt (sub : String) (admin : Bool) (exp : Nat) : String :=
  String.mk ('e' :: '3' :: '0' :: '.' ::
    (((encB64 ((encClaimsJson sub admin exp).map Char.toNat)).map stdToUrl) ++
      ('.' :: 's' :: 'i' :: 'g' :: [])))

/-- Digit characters are ASCII. -/
theorem natCharsAux_ascii (f : Nat) : ∀ n, ∀ c ∈ natCharsAux (f + 1) n, c.toNat < 128 := by
  have hd : ∀ m, m < 10 → (Char.ofNat (48 + m)).toNat < 128 := by decide
  induction f with
  | zero =>
    intro n c hc
    rw [natCharsAux_succ] at hc
    by_cases h10 : n < 10
    · rw [if_pos h10] at hc
      simp at hc
      exact hc ▸ hd n h10
    · rw [if_neg h10] at hc
      simp [natCharsAux] at hc
      exact hc ▸ hd (n % 10) (by omega)
  | succ f ih =>
    intro n c hc
    rw [natCharsAux_succ] at hc
    by_cases h10 : n < 10
    · rw [if_pos h10] at hc
      simp at hc
      exact hc ▸ hd n h10
    · rw [if_neg h10] at hc
      simp at hc
      rcases hc with hc | hc
      · exact ih (n / 10) c hc
      · exact hc ▸ hd (n % 10) (by omega)

/-- The claims text is ASCII when the subject is made of simple characters. -/
theorem encClaimsJson_ascii (sub : String) (admin : Bool) (exp : Nat)
    (hsub : ∀ c ∈ sub.toList, simpleChar c = true) :
    ∀ c ∈ encClaimsJson sub admin exp, c.toNat < 128 := by
  unfold encClaimsJson
  simp only [List.forall_mem_cons, List.forall_mem_append]
  repeat' apply And.intro
  all_goals first
    | decide
    | (cases admin <;> decide)
    | (exact natCharsAux_ascii exp exp)
    | (intro c hc
       have hx := hsub c hc
       simp only [simpleChar, Bool.and_eq_true, decide_eq_true_eq] at hx
       exact hx.1.1.2)

/-- Decoding an issued token recovers the claims object. -/
theorem decodeToken_encJwt (sub : String) (admin : Bool) (exp : Nat)
    (hsub : ∀ c ∈ sub.toList, simpleChar c = true) :
    decodeToken (encJwt sub admin exp) = some (claimsJson sub admin exp) := by
  have hascii := encClaimsJson_ascii sub admin exp hsub
  have hb256 : ∀ b ∈ (encClaimsJson sub admin exp).map Char.toNat, b < 256 := by
    intro b hb
    simp only [List.mem_map] at hb
    obtain ⟨c, hc, rfl⟩ := hb
    have := hascii c hc
    omega
  have hb128 : ∀ b ∈ (encClaimsJson sub admin exp).map Char.toNat, b < 128 := by
    intro b hb
    simp only [List.mem_map] at hb
    obtain ⟨c, hc, rfl⟩ := hb
    exact hascii c hc
  have hnodot : '.' ∉ (encB64 ((encClaimsJson sub admin exp).map Char.toNat)).map stdToUrl := by
    intro hm
    simp only [List.mem_map] at hm
    obtain ⟨c, hc, hEq⟩ := hm
    obtain ⟨n, hn, rfl⟩ := encB64_chars _ hb256 c hc
    exact b64Std_url_ne_dot n hn hEq
  have hsplit : (splitOnDot ('e' :: '3' :: '0' :: '.' ::
      (((encB64 ((encClaimsJson sub admin exp).map Char.toNat)).map stdToUrl) ++
        ('.' :: 's' :: 'i' :: 'g' :: []))))[1]? =
      some ((encB64 ((encClaimsJson sub admin exp).map Char.toNat)).map stdToUrl) := by
    have key := splitOnDot_get1 ['e', '3', '0']
      ((encB64 ((encClaimsJson sub admin exp).map Char.toNat)).map stdToUrl)
      ['s', 'i', 'g'] (by decide) hnodot
    simpa using key
  have hmapround := map_url_round _ hb256
  have hatob := atob_encB64 _ hb256
  have hutf : utf8Decode ((encClaimsJson sub admin exp).map Char.toNat) =
      some (encClaimsJson sub admin exp) := by
    rw [utf8Decode_ascii _ hb128, List.map_map]
    congr 1
    exact map_id_of_mem _ _ (fun c _ => Char.ofNat_toNat c)
  have hjson := parseJson_claims sub admin exp hsub
  unfold decodeToken encJwt
  simp only [String.toList]
  rw [hsplit]
  simp only [hmapround, hatob, hutf, hjson]

/-- C5: for every issued token over the canonical claims object, `decode`
returns the claims with `exp` equal to the encoded value; and on malformed
input — the empty string, any token without a dot (wrong segment count),
a payload segment rejected by `atob`, or a payload that is not valid
structured data — `decode` returns `null`. The model `decodeToken` is a
total function, so no input can raise to the caller. -/
theorem decodeToken_valid_and_malformed
    (sub : String) (admin : Bool) (exp : Nat)
    (hsub : ∀ c ∈ sub.toList, simpleChar c = true) :
    (decodeToken (encJwt sub admin exp) = some (claimsJson sub admin exp) ∧
      (claimsJson sub admin exp).expNum = some (exp : Int)) ∧
    decodeToken "" = none ∧
    (∀ t : String, '.' ∉ t.toList → decodeToken t = none) ∧
    decodeToken "h.!!!.s" = none ∧
    decodeToken "h.YWJj.s" = none ∧
    (∀ (t : String) (p : List Char), (splitOnDot t.toList)[1]? = some p →
      atob (p.map urlToStd) = none → decodeToken t = none) ∧
    (∀ (t : String) (p : List Char) (bytes : List Nat) (chars : List Char),
      (splitOnDot t.toList)[1]? = some p → atob (p.map urlToStd) = some bytes →
      utf8Decode bytes = some chars → parseJson chars = none → decodeToken t = none) := by
  refine ⟨⟨decodeToken_encJwt sub admin exp hsub, rfl⟩, by decide, ?_, by decide, by decide,
    ?_, ?_⟩
  · intro t ht
    unfold decodeToken
    rw [splitOnDot_no_dot t.toList ht]
    rfl
  · intro t p h1 h2
    unfold decodeToken
    rw [h1]
    simp only [h2]
  · intro t p bytes chars h1 h2 h3 h4
    unfold decodeToken
    rw [h1]
    simp only [h2, h3, h4]

/-- Witness for C5 at a concrete subject, admin flag, and expiry. -/
theorem decodeToken_valid_and_malformed_witness :
    decodeToken (encJwt "u" true 600) = some (claimsJson "u" true 600) ∧
    (claimsJson "u" true 600).expNum = some (600 : Int) :=
  (decodeToken_valid_and_malformed "u" true 600 (by decide)).1

/-- C6: on initialization, a stored access token whose decoded claims are
truthy, unexpired, and carry `is_admin = true` puts the SessionController in
`{isAuthenticated := true, isAdmin := true, isLoading := false}` without
invoking refresh; and an empty store puts it in
`{isAuthenticated := false, isAdmin := false, isLoading := false}` with no
network call. -/
theorem checkAuth_initialization (s : SessState) (store : Store) (now : Int) :
    (∀ (t : String) (j : Json), store.access = some t → (t == "") = false →
      decodeToken t = some j → j.truthy = true → expFresh j now = true →
      j.isAdminFlag = true →
      checkAuth s store now =
        ({ isAuthenticated := true, isAdmin := true, isLoading := false }, false)) ∧
    (store.access = none →
      checkAuth s store now =
        ({ isAuthenticated := false, isAdmin := false, isLoading := false }, false)) := by
  constructor
  · intro t j ha hne hdec htr hexp hadm
    simp [checkAuth, ha, jsTruthy, hne, hdec, htr, hexp, hadm]
  · intro ha
    simp [checkAuth, ha, jsTruthy]

/-- Witness for C6: a token with `exp` 10 minutes past epoch checked at
epoch (10 minutes ahead of `now`), and the empty store. -/
theorem checkAuth_initialization_witness :
    checkAuth { isAuthenticated := false, isAdmin := false, isLoading := true }
        { access := some (encJwt "u" true 600), refresh := none } 0 =
      ({ isAuthenticated := true, isAdmin := true, isLoading := false }, false) ∧
    checkAuth { isAuthenticated := false, isAdmin := false, isLoading := true }
        { access := none, refresh := none } 0 =
      ({ isAuthenticated := false, isAdmin := false, isLoading := false }, false) :=
  ⟨(checkAuth_initialization _ _ _).1 (encJwt "u" true 600) (claimsJson "u" true 600)
      rfl (by decide) (by decide) (by decide) (by decide) (by decide),
   (checkAuth_initialization _ _ _).2 rfl⟩

/-- Program counter of one in-browser `apiRequest` call at its suspension
points (each network call is a suspension of the event loop): the initial
fetch in flight, the 401 received (about to run the synchronous
refresh-token read), the refresh fetch in flight, the retried request in
flight, or finished with a result. -/
inductive Phase where
  | start
  | got401
  | refreshing
  | retrying
  | done (result : ApiResult)
  deriving Repr, DecidableEq

/-- One in-flight `apiRequest` call: its environment and program counter. -/
structure Proc where
  env : Env
  phase : Phase
  deriving Repr, DecidableEq

/-- One event-loop step of a single call against the shared store,
mirroring the 401 branch of `apiRequest` (api.ts lines 481–563) transition
by transition. Returns the new process, the new store, and the deltas of
refresh calls, redirects, and refresh events. The synchronous block between
receiving the 401 and issuing the refresh fetch (lines 488–498) is one
step, as it runs without suspension. -/
def stepProc (p : Proc) (store : Store) : Proc × Store × Nat × Nat × Nat :=
  match p.phase with
  | Phase.start =>
    if p.env.first.status == 401 then ({ p with phase := Phase.got401 }, store, 0, 0, 0)
    else ({ p with phase := Phase.done (finishResp p.env.first) }, store, 0, 0, 0)
  | Phase.got401 =>
    if jsTruthy store.refresh then
      ({ p with phase := Phase.refreshing }, store, 1, 0, 0)
    else
      ({ p with phase := Phase.done (ApiResult.error
          (jsOr p.env.first.detail (jsOrStr p.env.first.statusText "An error occurred"))
          p.env.first.status) },
        { store with access := none }, 0, redirCount p.env.pathname, 0)
  | Phase.refreshing =>
    match p.env.refreshO with
    | RefreshOutcome.ok payload =>
      let td := payload.tokenData
      if jsTruthy td.access_token then
        let newTok := td.access_token.getD ""
        let store1 : Store := { store with access := some newTok }
        let store2 : Store :=
          if jsTruthy td.refresh_token then { store1 with refresh := td.refresh_token }
          else store1
        ({ p with phase := Phase.retrying }, store2, 0, 0, 1)
      else
        ({ p with phase := Phase.done (ApiResult.error
            "Failed to refresh token: Failed to refresh token - no access_token in response" 401) },
          { access := none, refresh := none }, 0,
          redirCount p.env.pathname + redirCount p.env.pathname, 0)
    | RefreshOutcome.notOk _ detail statusText =>
      ({ p with phase := Phase.done (ApiResult.error
          ("Failed to refresh token: " ++ ("Failed to refresh token: " ++ jsOr detail statusText))
          401) },
        { access := none, refresh := none }, 0,
        redirCount p.env.pathname + redirCount p.env.pathname, 0)
    | RefreshOutcome.exn msg =>
      ({ p with phase := Phase.done (ApiResult.error
          ("Failed to refresh token: " ++ msg.getD "Unknown error") 401) },
        { access := none, refresh := none }, 0, redirCount p.env.pathname, 0)
  | Phase.retrying =>
    ({ p with phase := Phase.done (finishResp p.env.retry) }, store, 0, 0, 0)
  | Phase.done _ => (p, store, 0, 0, 0)

/-- Two overlapping `apiRequest` calls sharing the token store, with the
accumulated counts of refresh calls, redirect assignments, and refresh
events. -/
structure Sys where
  store : Store
  p1 : Proc
  p2 : Proc
  refreshCalls : Nat
  redirects : Nat
  events : Nat
  deriving Repr, DecidableEq

/-- Step the chosen process (`true` = first). -/
def stepSys (choice : Bool) (s : Sys) : Sys :=
  if choice then
    match stepProc s.p1 s.store with
    | (p1n, stn, rc, rd, ev) =>
      { s with
        p1 := p1n,
        store := stn,
        refreshCalls := s.refreshCalls + rc,
        redirects := s.redirects + rd,
        events := s.events + ev }
  else
    match stepProc s.p2 s.store with
    | (p2n, stn, rc, rd, ev) =>
      { s with
        p2 := p2n,
        store := stn,
        refreshCalls := s.refreshCalls + rc,
        redirects := s.redirects + rd,
        events := s.events + ev }

/-- Run a schedule (one entry per event-loop step). -/
def runSched : List Bool → Sys → Sys
  | [], s => s
  | c :: cs, s => runSched cs (stepSys c s)

/-- Concrete two-request environment: the initial response is 401 and the
refresh call fails with 401. -/
def envBoth401 : Env :=
  { first := { status := 401, detail := none, statusText := "Unauthorized" },
    refreshO := RefreshOutcome.notOk 401 none "Unauthorized",
    retry := { status := 200, detail := none, statusText := "OK" },
    inBrowser := true, pathname := "/dashboard" }

/-- Initial system for two overlapping requests against a shared store. -/
def initSys (e1 e2 : Env) (store : Store) : Sys :=
  { store := store,
    p1 := { env := e1, phase := Phase.start },
    p2 := { env := e2, phase := Phase.start },
    refreshCalls := 0, redirects := 0, events := 0 }

/-- The schedule in which both requests receive their 401 before either
refresh resolves (a legal event-loop interleaving: the initial fetches
resolve back to back, then each runs its synchronous refresh-token read and
issues its refresh fetch, then the refresh responses arrive). -/
def schedBoth : List Bool := [true, false, true, false, true, false]

/-- Counterexample to C8: under the interleaving in which both overlapping
requests receive 401 before either refresh resolves, the code issues two
refresh calls — 401-triggered refreshes are not coalesced into one — and,
with both refreshes failing, performs four redirect assignments (each
request runs its own purge-then-redirect twice: once in the refresh-failed
branch and once in its enclosing catch), not at most one unauthenticated
transition per episode. -/
theorem concurrent_401_not_coalesced_cx :
    (runSched schedBoth (initSys envBoth401 envBoth401
      { access := some "a", refresh := some "r" })).refreshCalls = 2 ∧
    (runSched schedBoth (initSys envBoth401 envBoth401
      { access := some "a", refresh := some "r" })).redirects = 4 := by decide

/-- C8 amended: the code performs no coalescing — whenever two overlapping
requests both receive 401 while a truthy refresh token is stored and
neither refresh has resolved yet, each issues its own refresh call (two in
total); when both refreshes fail (non-2xx) and the page is outside the
login/auth paths, each performs its own purge-and-redirect sequence (four
redirect assignments in total) and the store ends purged. -/
theorem concurrent_401_duplicate_refreshes
    (e1 e2 : Env) (store : Store)
    (h1 : e1.first.status = 401) (h2 : e2.first.status = 401)
    (hrt : jsTruthy store.refresh = true)
    (hf1 : ∃ st d tx, e1.refreshO = RefreshOutcome.notOk st d tx)
    (hf2 : ∃ st d tx, e2.refreshO = RefreshOutcome.notOk st d tx)
    (hpath1 : redirGuard e1.pathname = true) (hpath2 : redirGuard e2.pathname = true) :
    (runSched schedBoth (initSys e1 e2 store)).refreshCalls = 2 ∧
    (runSched schedBoth (initSys e1 e2 store)).redirects = 4 ∧
    (runSched schedBoth (initSys e1 e2 store)).store =
      { access := none, refresh := none } := by
  obtain ⟨st1, d1, tx1, hr1⟩ := hf1
  obtain ⟨st2, d2, tx2, hr2⟩ := hf2
  simp [runSched, schedBoth, initSys, stepSys, stepProc, h1, h2, hrt, hr1, hr2,
    redirCount, hpath1, hpath2]

/-- Witness for the amended C8 at a concrete pair of requests and store. -/
theorem concurrent_401_duplicate_refreshes_witness :
    (runSched schedBoth (initSys envBoth401 envBoth401
      { access := some "b", refresh := some "s" })).refreshCalls = 2 ∧
    (runSched schedBoth (initSys envBoth401 envBoth401
      { access := some "b", refresh := some "s" })).redirects = 4 ∧
    (runSched schedBoth (initSys envBoth401 envBoth401
      { access := some "b", refresh := some "s" })).store =
      { access := none, refresh := none } :=
  concurrent_401_duplicate_refreshes envBoth401 envBoth401
    { access := some "b", refresh := some "s" }
    (by decide) (by decide) (by decide)
    ⟨401, none, "Unauthorized", rfl⟩ ⟨401, none, "Unauthorized", rfl⟩
    (by decide) (by decide)

/-- A single call run on the machine with no interleaving: four steps of
the first process (enough for the longest path
start → 401 → refresh → retry → done; completed processes step idly). -/
def soloRun (env : Env) (store : Store) (dummy : Proc) : Sys :=
  runSched [true, true, true, true]
    { store := store,
      p1 := { env := env, phase := Phase.start },
      p2 := dummy,
      refreshCalls := 0, redirects := 0, events := 0 }

/-- Adequacy of the interleaving machine: run without interleaving, an
in-browser call finishes with exactly the result, store, and effect counts
of the big-step `apiRequest`. -/
theorem soloRun_agrees_apiRequest (env : Env) (store : Store) (dummy : Proc)
    (hb : env.inBrowser = true) :
    (soloRun env store dummy).p1.phase = Phase.done (apiRequest env store).1 ∧
    (soloRun env store dummy).store = (apiRequest env store).2.store ∧
    (soloRun env store dummy).refreshCalls = (apiRequest env store).2.refreshCalls ∧
    (soloRun env store dummy).redirects = (apiRequest env store).2.redirects ∧
    (soloRun env store dummy).events = (apiRequest env store).2.events := by
  unfold soloRun
  by_cases h401 : env.first.status = 401
  · by_cases hrt : jsTruthy store.refresh = true
    · rcases hro : env.refreshO with p | ⟨st, d, tx⟩ | m
      · by_cases hacc : jsTruthy p.tokenData.access_token = true
        · obtain ⟨t, ht, hne⟩ := (jsTruthy_iff _).mp hacc
          have hat : jsTruthy (some t) = true := by simp [jsTruthy] at hne ⊢; exact hne
          simp [runSched, stepSys, stepProc, apiRequest, h401, hb, hrt, hro, hacc, ht, hat]
        · have hacc' : jsTruthy p.tokenData.access_token = false := by simpa using hacc
          simp [runSched, stepSys, stepProc, apiRequest, h401, hb, hrt, hro, hacc']
      · simp [runSched, stepSys, stepProc, apiRequest, h401, hb, hrt, hro]
      · simp [runSched, stepSys, stepProc, apiRequest, h401, hb, hrt, hro]
    · have hrt' : jsTruthy store.refresh = false := by simpa using hrt
      simp [runSched, stepSys, stepProc, apiRequest, h401, hb, hrt']
  · simp [runSched, stepSys, stepProc, apiRequest, h401, hb]
